import Mathlib

/-!
Shallow embedding of the core of `src/main.ts` (obsidian-ollama-rag):
cosine similarity, the Ollama embedding/completion clients, the in-memory
vector index rebuild, similarity ranking, the two retrieval commands, and
the agent action-parsing/execution loop.

Conventions:
* JS `number` values arising from the source's arithmetic are modelled as
  rationals (`ℚ`) where only ordering/field operations matter, and as reals
  (`ℝ`) where `Math.sqrt` is involved; IEEE rounding/overflow is not
  modelled.  The one IEEE artefact the source can actually produce on the
  claimed inputs — `0/0 = NaN` in `cosineSimilarity` — is modelled
  explicitly by an `Option` result (`none` = NaN).
* Network calls (`fetch`) are modelled by passing the backend's observable
  response as data; `JSON.parse` of text produced by the model backend is
  modelled as an abstract parse function passed as a parameter.
* Thrown JS exceptions are modelled by `Option`/`Except` results.
-/

/-- JS `String.prototype.trim`: drop whitespace from both ends.
(Modelled structurally over the character list so concrete instances
reduce by `decide`/`rfl`.) -/
def jsTrim (s : String) : String :=
  String.mk (((s.toList.dropWhile Char.isWhitespace).reverse.dropWhile
    Char.isWhitespace).reverse)

/-- JS `String.prototype.startsWith pre`. -/
def jsStartsWith (s pre : String) : Bool :=
  pre.toList.isPrefixOf s.toList

/-- JS `String.prototype.slice start stop` (characters in `[start, stop)`). -/
def jsSlice (s : String) (start stop : Nat) : String :=
  String.mk ((s.toList.drop start).take (stop - start))

/-- JS `String.prototype.indexOf c` (as `Option` instead of `-1`). -/
def jsIndexOf (s : String) (c : Char) : Option Nat :=
  s.toList.findIdx? (fun x => x = c)

/-- JS `String.prototype.lastIndexOf c` (as `Option` instead of `-1`). -/
def jsLastIndexOf (s : String) (c : Char) : Option Nat :=
  match (s.toList.reverse.findIdx? (fun x => x = c)) with
  | none => none
  | some i => some (s.toList.length - 1 - i)

/-- Split a character list on a separator character (JS `split`). -/
def splitListOn (c : Char) (l : List Char) : List (List Char) :=
  l.foldr
    (fun ch acc =>
      if ch = c then [] :: acc
      else
        match acc with
        | [] => [[ch]]
        | h :: t => (ch :: h) :: t)
    [[]]

/-- JS `chunk.split('\n')`. -/
def splitLines (s : String) : List String :=
  (splitListOn (Char.ofNat 10) s.toList).map String.mk

/-- Dot product, `main.ts` line 11:
`a.reduce((sum, ai, i) => sum + ai * b[i], 0)`.
For equal-length vectors this is the pairwise product sum; `zipWith`
truncates to the shorter list (the source would produce NaN there, which
none of the claims exercise for unequal lengths). -/
def dot (a b : List ℚ) : ℚ :=
  (List.zipWith (fun x y => x * y) a b).sum

/-- Squared Euclidean norm, `main.ts` lines 12-13 before the `Math.sqrt`:
`a.reduce((sum, ai) => sum + ai * ai, 0)`. -/
def normSq (a : List ℚ) : ℚ :=
  ((a.map (fun x => x * x)).sum)

/-- Cosine similarity, `main.ts` lines 10-15:
`return dot / (normA * normB)` with `normA = sqrt(normSq a)`,
`normB = sqrt(normSq b)` and no guard of any kind.
When either norm is zero the source divides `0` by `0`, which in JS is
`NaN`; that outcome is modelled as `none`.  (The denominator is zero
exactly when `normSq a = 0 ∨ normSq b = 0`, and then the zero vector
forces `dot = 0`, so NaN is the only degenerate value reachable here.)
In all other cases the real quotient is returned as `some`. -/
noncomputable def cosineSimilarity (a b : List ℚ) : Option ℝ :=
  if normSq a = 0 ∨ normSq b = 0 then none
  else some ((dot a b : ℝ) / (Real.sqrt (normSq a) * Real.sqrt (normSq b)))

/-- Embedding client `getNoteEmbedding`, `main.ts` lines 17-43.
`respEmbedding` is the backend's observable answer: `none` when the
response has no `embedding` array (the source throws), `some e` when
`data.embedding` is the array `e` — which the source returns as-is,
with no emptiness check (`Array.isArray([])` is `true`).
The result is `none` when the source throws, `some` when it returns. -/
def getNoteEmbedding (text : String) (respEmbedding : Option (List ℚ)) :
    Option (List ℚ) :=
  if (jsTrim text).length < 10 then none
  else
    match respEmbedding with
    | none => none
    | some e => some e

/-- Completion client `getAICompletion`, `main.ts` lines 45-93.
`body` is the transport result: `none` when `res.body` is absent (the
source throws `'No response body from Ollama'`), `some chunks` for the
streamed chunk strings.  `jsonLine` models `JSON.parse` plus the
`data.response` truthiness test on one line: `none` = parse throws
(logged and skipped), `some none` = parses but no truthy `response`
field, `some (some r)` = truthy fragment `r`, appended.
Note the source never fails once a body exists: it returns the
accumulated string, which is `""` when no fragment ever parsed. -/
def getAICompletion (jsonLine : String → Option (Option String))
    (body : Option (List String)) : Except String String :=
  match body with
  | none => Except.error "No response body from Ollama"
  | some chunks =>
    Except.ok (chunks.foldl
      (fun acc chunk =>
        (splitLines chunk).foldl
          (fun acc2 line =>
            if jsTrim line = "" then acc2
            else
              match jsonLine line with
              | none => acc2
              | some none => acc2
              | some (some r) => acc2 ++ r)
          acc)
      "")

/-- A markdown file of the vault as the indexing loop sees it:
`file.name`, `file.path`, and the result of `vault.read file`. -/
structure TFileM where
  name : String
  path : String
  content : String
deriving DecidableEq

/-- One entry of the in-memory vector index, `main.ts` line 95. -/
structure IndexEntry where
  path : String
  content : String
  embedding : List ℚ
deriving DecidableEq

/-- The `index-all-notes-for-ai` command callback, `main.ts` lines 117-140.
`embed` is the observable behavior of `getNoteEmbedding` on this vault
(`none` = the call threw; the loop notifies and continues).
The prior index `oldIndex` is discarded unconditionally
(`embeddingIndex = []`) before the loop runs, so it never influences the
result. -/
def indexAllNotes (embed : String → Option (List ℚ)) (files : List TFileM)
    (_oldIndex : List IndexEntry) : List IndexEntry :=
  files.foldl
    (fun idx file =>
      if jsStartsWith file.name "Related Notes - " ||
          jsStartsWith file.name "AI Answer - " then idx
      else if file.content.length < 50 then idx
      else
        match embed file.content with
        | none => idx
        | some embedding =>
          if embedding.length = 0 then idx
          else idx ++ [⟨file.path, file.content, embedding⟩])
    ([] : List IndexEntry)

/-- The per-document decision of the indexing loop, written out as one
`Option`-valued function; `indexAllNotes` is proved equal to
`List.filterMap` of this. -/
def keepEntry (embed : String → Option (List ℚ)) (file : TFileM) :
    Option IndexEntry :=
  if jsStartsWith file.name "Related Notes - " ||
      jsStartsWith file.name "AI Answer - " then none
  else if file.content.length < 50 then none
  else
    match embed file.content with
    | none => none
    | some embedding =>
      if embedding.length = 0 then none
      else some ⟨file.path, file.content, embedding⟩

/-- An index entry together with its query score, `main.ts` lines 159-162
(`{...n, score: cosineSimilarity(queryEmbedding, n.embedding)}`).
The score is the JS number the comparator sees; only its ordering is
used, modelled over `ℚ`. -/
structure ScoredEntry where
  entry : IndexEntry
  score : ℚ
deriving DecidableEq

/-- The descending sort `scored.sort((a, b) => b.score - a.score)`,
`main.ts` line 163 / line 205.  `Array.prototype.sort` is required by the
language standard to be stable, and with this comparator it orders by
score descending; modelled as a stable merge sort with
`le a b := b.score ≤ a.score`. -/
def rank (l : List ScoredEntry) : List ScoredEntry :=
  l.mergeSort (fun a b => decide (b.score ≤ a.score))

/-- Outcome of one run of the `find-notes-relating-to` callback. -/
inductive FindOutcome where
  | needIndex
  | cancelled
  | embedFailed
  | notes (top : List ScoredEntry)
deriving DecidableEq

/-- Outcome of one run of the `ask-ai-about-notes` callback. -/
inductive AskOutcome where
  | needIndex
  | cancelled
  | embedFailed
  | completionFailed
  | answer (text : String) (top : List ScoredEntry)
deriving DecidableEq

/-- The `find-notes-relating-to` command callback, `main.ts` lines 146-182,
up to the ranked top-10 list (the markdown rendering and file creation
that follow only happen in the `notes` outcome).
`query` is the `promptUser` result (`none`/`""` are falsy: return),
`embed` the embedding client's behavior, and `scoreFn` stands for the
numeric value of `cosineSimilarity` as seen by the comparator. -/
def findRelatedRun (scoreFn : List ℚ → List ℚ → ℚ)
    (index : List IndexEntry) (query : Option String)
    (embed : String → Option (List ℚ)) : FindOutcome :=
  if index.length = 0 then FindOutcome.needIndex
  else
    match query with
    | none => FindOutcome.cancelled
    | some q =>
      if q = "" then FindOutcome.cancelled
      else
        match embed q with
        | none => FindOutcome.embedFailed
        | some queryEmbedding =>
          let scored := index.map
            (fun n => ScoredEntry.mk n (scoreFn queryEmbedding n.embedding))
          FindOutcome.notes ((rank scored).take 10)

/-- The `ask-ai-about-notes` command callback, `main.ts` lines 188-234, up
to the answer text and top-3 context list (the markdown rendering and
file creation that follow only happen in the `answer` outcome).
`complete` is the completion client's behavior on the assembled prompt. -/
def askAiRun (scoreFn : List ℚ → List ℚ → ℚ)
    (index : List IndexEntry) (question : Option String)
    (embed : String → Option (List ℚ))
    (complete : String → Except String String) : AskOutcome :=
  if index.length = 0 then AskOutcome.needIndex
  else
    match question with
    | none => AskOutcome.cancelled
    | some q =>
      if q = "" then AskOutcome.cancelled
      else
        match embed q with
        | none => AskOutcome.embedFailed
        | some questionEmbedding =>
          let scored := index.map
            (fun n => ScoredEntry.mk n (scoreFn questionEmbedding n.embedding))
          let top := (rank scored).take 3
          let context := String.intercalate "\n---\n"
            (top.map (fun n => "Note: " ++ n.entry.path ++ "\n" ++ n.entry.content))
          let prompt :=
            "You are an assistant with access to my notes. Use the following notes to answer the question.\n\n"
            ++ context ++ "\n\nQuestion: " ++ q ++ "\nAnswer:"
          match complete prompt with
          | Except.error _ => AskOutcome.completionFailed
          | Except.ok ans => AskOutcome.answer ans top

/-- An entity of the document store: a file with content, or a folder.
Modelled from the spec: the Obsidian vault itself is an external
collaborator (spec section 1: the document store supplies CRUD by path),
not part of `src/`. -/
inductive VEntry where
  | file (content : String)
  | folder
deriving DecidableEq

/-- Modelled from the spec: the external document store, an
insertion-ordered path-to-entry association with unique paths. -/
abbrev Vault : Type := List (String × VEntry)

/-- Modelled from the spec: `vault.getAbstractFileByPath` — resolve a path
to its entry, if any. -/
def Vault.get (v : Vault) (p : String) : Option VEntry :=
  match v.find? (fun e => e.1 = p) with
  | none => none
  | some e => some e.2

/-- Modelled from the spec: `vault.createFolder` — fails (throws) when the
path already resolves. -/
def Vault.createFolder (v : Vault) (p : String) : Except String Vault :=
  match Vault.get v p with
  | some _ => Except.error ("Folder already exists: " ++ p)
  | none => Except.ok (v ++ [(p, VEntry.folder)])

/-- Modelled from the spec: `vault.create` — fails (throws) when the path
already resolves. -/
def Vault.create (v : Vault) (p c : String) : Except String Vault :=
  match Vault.get v p with
  | some _ => Except.error ("File already exists: " ++ p)
  | none => Except.ok (v ++ [(p, VEntry.file c)])

/-- Modelled from the spec: `vault.delete` — remove the entry at a path. -/
def Vault.deleteEntry (v : Vault) (p : String) : Vault :=
  v.filter (fun e => decide (e.1 ≠ p))

/-- Modelled from the spec: `vault.modify` — overwrite the file content at
a path. -/
def Vault.modify (v : Vault) (p c : String) : Vault :=
  v.map (fun e => if e.1 = p then (p, VEntry.file c) else e)

/-- One parsed agent action, `main.ts` system prompt lines 390-412: a type
tag, a path, and (for files) an optional content.  (Named `AgentAction`
because Mathlib already declares an `Action`.) -/
structure AgentAction where
  type : String
  path : String
  content : Option String
deriving DecidableEq

/-- One iteration of the action loop, `main.ts` lines 442-471: dispatch on
`action.type` inside a per-action `try`/`catch`, producing the updated
vault and the summary line this action contributes (`""` when the
branch appends nothing).  A thrown store error is caught and turned into
the `Error with action on ...` line. -/
def execAction (v : Vault) (a : AgentAction) : Vault × String :=
  if a.type = "create_folder" then
    match Vault.createFolder v a.path with
    | Except.ok v' => (v', "Created folder: " ++ a.path ++ "\n")
    | Except.error e => (v, "Error with action on " ++ a.path ++ ": " ++ e ++ "\n")
  else if a.type = "create_file" then
    match Vault.create v a.path (a.content.getD "") with
    | Except.ok v' => (v', "Created file: " ++ a.path ++ "\n")
    | Except.error e => (v, "Error with action on " ++ a.path ++ ": " ++ e ++ "\n")
  else if a.type = "delete_file" then
    match Vault.get v a.path with
    | some (VEntry.file _) =>
      (Vault.deleteEntry v a.path, "Deleted file: " ++ a.path ++ "\n")
    | _ => (v, "")
  else if a.type = "delete_folder" then
    match Vault.get v a.path with
    | some VEntry.folder =>
      (Vault.deleteEntry v a.path, "Deleted folder: " ++ a.path ++ "\n")
    | _ => (v, "")
  else if a.type = "update_file" then
    match Vault.get v a.path with
    | some (VEntry.file _) =>
      (Vault.modify v a.path (a.content.getD ""), "Updated file: " ++ a.path ++ "\n")
    | _ => (v, "")
  else (v, "")

/-- The action loop of `main.ts` lines 441-472: actions in array order,
each contributing its line to the summary, the vault threaded through. -/
def execActions (v : Vault) (as : List AgentAction) : Vault × String :=
  match as with
  | [] => (v, "")
  | a :: rest =>
    let r := execAction v a
    let r2 := execActions r.1 rest
    (r2.1, r.2 ++ r2.2)

/-- The response-handling part of `AIAgentChatModal.handleUserMessage`,
`main.ts` lines 414-479: given the completion client's result and the
current vault, produce the updated vault and the assistant `ChatMessage`
content pushed for this turn.
`jsonParse` models `JSON.parse` restricted to the extracted bracket
substring (which always starts with `[`, so a successful parse is an
array): `none` = throws, `some as` = the parsed action array. -/
def handleUserMessage (jsonParse : String → Option (List AgentAction))
    (completion : Except String String) (v : Vault) : Vault × String :=
  match completion with
  | Except.error _ => (v, "Error: Could not get a response from the AI.")
  | Except.ok aiResponse =>
    let parsed : List AgentAction × String :=
      match jsIndexOf aiResponse (Char.ofNat 91),
          jsLastIndexOf aiResponse (Char.ofNat 93) with
      | some jsonStart, some jsonEnd =>
        if jsonStart < jsonEnd then
          match jsonParse (jsSlice aiResponse jsonStart (jsonEnd + 1)) with
          | some as => (as, "")
          | none => ([], jsTrim aiResponse)
        else ([], jsTrim aiResponse)
      | _, _ => ([], jsTrim aiResponse)
    if parsed.1.length > 0 then
      let r := execActions v parsed.1
      (r.1, if r.2 = "" then "No actions performed." else r.2)
    else if parsed.2 ≠ "" then (v, parsed.2)
    else (v, "No valid actions or message returned.")

/-- The turn's parse-and-dispatch behavior as the amended spec sentence
describes it, written from that sentence's words for comparison with
`handleUserMessage`: locate the first `[` and last `]`; with a valid pair,
parse the inclusive substring; on success with a non-empty array execute
the actions (summary, or `"No actions performed."` when the summary is
empty); on success with an empty array emit
`"No valid actions or message returned."`; on parse failure or without a
bracket pair emit the trimmed raw text when non-empty, else that same
fallback. -/
def agentParseSpec (jsonParse : String → Option (List AgentAction))
    (raw : String) (v : Vault) : Vault × String :=
  let emitText : Vault × String :=
    if jsTrim raw = "" then (v, "No valid actions or message returned.")
    else (v, jsTrim raw)
  match jsIndexOf raw (Char.ofNat 91), jsLastIndexOf raw (Char.ofNat 93) with
  | some jsonStart, some jsonEnd =>
    if jsonStart < jsonEnd then
      match jsonParse (jsSlice raw jsonStart (jsonEnd + 1)) with
      | some [] => (v, "No valid actions or message returned.")
      | some (a :: rest) =>
        let r := execActions v (a :: rest)
        (r.1, if r.2 = "" then "No actions performed." else r.2)
      | none => emitText
    else emitText
  | _, _ => emitText

/-- A sample note content longer than the 50-character threshold. -/
def sample60 : String :=
  "This note has enough content to pass the fifty character test."

/-! Helper lemmas shared by the claim theorems. -/

/-- The action loop distributes over list append: the actions after any
prefix — failing or not — are executed on the prefix's final vault, and
their summary lines are appended after the prefix's. -/
theorem execActions_append (v : Vault) (as1 as2 : List AgentAction) :
    execActions v (as1 ++ as2) =
      ((execActions (execActions v as1).1 as2).1,
        (execActions v as1).2 ++ (execActions (execActions v as1).1 as2).2) := by
  induction as1 generalizing v with
  | nil => simp [execActions]
  | cons a rest ih =>
    simp only [List.cons_append, execActions, List.append_eq, ih,
      String.append_assoc]

/-- The loop body of `indexAllNotes` appends exactly the `keepEntry`
decision for the current file. -/
theorem indexAllNotes_step (embed : String → Option (List ℚ))
    (idx : List IndexEntry) (file : TFileM) :
    (if jsStartsWith file.name "Related Notes - " ||
        jsStartsWith file.name "AI Answer - " then idx
      else if file.content.length < 50 then idx
      else
        match embed file.content with
        | none => idx
        | some embedding =>
          if embedding.length = 0 then idx
          else idx ++ [⟨file.path, file.content, embedding⟩]) =
      idx ++ (keepEntry embed file).toList := by
  unfold keepEntry
  by_cases h1 : (jsStartsWith file.name "Related Notes - " ||
      jsStartsWith file.name "AI Answer - ") = true
  · simp [h1]
  · by_cases h2 : file.content.length < 50
    · simp [h1, h2]
    · cases h3 : embed file.content with
      | none => simp [h1, h2, h3]
      | some embedding =>
        by_cases h4 : embedding.length = 0
        · simp [h1, h2, h3, h4]
        · simp [h1, h2, h3, h4]

/-- Folding `fun idx f => idx ++ (g f).toList` is `filterMap`. -/
theorem foldl_toList_eq_filterMap (g : TFileM → Option IndexEntry) :
    ∀ (fs : List TFileM) (acc : List IndexEntry),
      fs.foldl (fun idx f => idx ++ (g f).toList) acc = acc ++ fs.filterMap g := by
  intro fs
  induction fs with
  | nil => intro acc; simp
  | cons f rest ih =>
    intro acc
    cases h : g f with
    | none => simp [List.foldl_cons, ih, h]
    | some e => simp [List.foldl_cons, ih, h]

/-- The index rebuild is `filterMap keepEntry` over the document list. -/
theorem indexAllNotes_eq_filterMap (embed : String → Option (List ℚ))
    (files : List TFileM) (old : List IndexEntry) :
    indexAllNotes embed files old = files.filterMap (keepEntry embed) := by
  unfold indexAllNotes
  have hb :
      (fun (idx : List IndexEntry) (file : TFileM) =>
        if jsStartsWith file.name "Related Notes - " ||
            jsStartsWith file.name "AI Answer - " then idx
        else if file.content.length < 50 then idx
        else
          match embed file.content with
          | none => idx
          | some embedding =>
            if embedding.length = 0 then idx
            else idx ++ [⟨file.path, file.content, embedding⟩]) =
      (fun idx f => idx ++ ((keepEntry embed f).toList)) := by
    funext idx file
    exact indexAllNotes_step embed idx file
  rw [hb, foldl_toList_eq_filterMap]
  simp

/-- Dot products commute entrywise. -/
theorem dot_comm (a b : List ℚ) : dot a b = dot b a := by
  unfold dot
  rw [List.zipWith_comm_of_comm (fun x y => x * y) (fun x y => mul_comm x y)]

/-- The dot product of a vector with itself is its squared norm. -/
theorem dot_self (a : List ℚ) : dot a a = normSq a := by
  unfold dot normSq
  rw [List.zipWith_same]

/-- Squared norms are nonnegative. -/
theorem normSq_nonneg (a : List ℚ) : 0 ≤ normSq a := by
  unfold normSq
  apply List.sum_nonneg
  intro x hx
  obtain ⟨y, -, rfl⟩ := List.mem_map.mp hx
  exact mul_self_nonneg y

/-- The descending score comparison is transitive. -/
theorem scoreLe_trans (a b c : ScoredEntry) :
    decide (b.score ≤ a.score) = true → decide (c.score ≤ b.score) = true →
    decide (c.score ≤ a.score) = true := by
  simp only [decide_eq_true_eq]
  exact fun h1 h2 => le_trans h2 h1

/-- The descending score comparison is total. -/
theorem scoreLe_total (a b : ScoredEntry) :
    (decide (b.score ≤ a.score) || decide (a.score ≤ b.score)) = true := by
  simp only [Bool.or_eq_true, decide_eq_true_eq]
  exact le_total b.score a.score

/-- Entries sharing one score are pairwise related by the descending
comparison. -/
theorem pairwise_scoreLe_of_const (s : ℚ) :
    ∀ (m : List ScoredEntry), (∀ x ∈ m, x.score = s) →
      m.Pairwise (fun a b => decide (b.score ≤ a.score) = true) := by
  intro m
  induction m with
  | nil => intro _; exact List.Pairwise.nil
  | cons x rest ih =>
    intro h
    refine List.Pairwise.cons ?_ (ih (fun y hy => h y (List.mem_cons_of_mem x hy)))
    intro y hy
    have hx : x.score = s := h x (List.mem_cons_self x rest)
    have hys : y.score = s := h y (List.mem_cons_of_mem x hy)
    simp [hx, hys]

/-! Claim theorems. -/

/-- C1 (code bug): on a zero-norm first vector the source's
`cosineSimilarity` evaluates `0 / 0`, i.e. the JS result is NaN
(modelled `none`): it neither returns `0` nor fails explicitly, contrary
to the spec's guard requirement. -/
theorem cosineSimilarity_zero_norm_nan :
    cosineSimilarity [0, 0] [1, 2] = none ∧
    cosineSimilarity [0, 0] [1, 2] ≠ some 0 := by
  have hcond : normSq ([0, 0] : List ℚ) = 0 := by norm_num [normSq]
  have h : cosineSimilarity [0, 0] [1, 2] = none := by
    unfold cosineSimilarity
    rw [if_pos (Or.inl hcond)]
  exact ⟨h, by simp [h]⟩

/-- C6 (confirmed): with an empty index, both retrieval callbacks return
the run-indexing-first outcome at once; the result does not depend on the
prompt, the embedding client or the completion client (so no embedding
call can influence it), and no other outcome — hence no file creation —
is reachable. -/
theorem retrieval_empty_index_guard (scoreFn : List ℚ → List ℚ → ℚ)
    (q1 q2 : Option String) (embed1 embed2 : String → Option (List ℚ))
    (complete : String → Except String String) :
    findRelatedRun scoreFn [] q1 embed1 = FindOutcome.needIndex ∧
    askAiRun scoreFn [] q2 embed2 complete = AskOutcome.needIndex :=
  ⟨rfl, rfl⟩

/-- C7 (confirmed): the descending sort of the scored entries is
non-increasing by score, stable (the entries at any fixed score keep
their original relative order: filtering the output at that score gives
exactly the input's filtration), and a permutation of its input. -/
theorem rank_sorted_stable (l : List ScoredEntry) :
    (rank l).Pairwise (fun a b => b.score ≤ a.score) ∧
    (∀ s : ℚ, (rank l).filter (fun e => decide (e.score = s)) =
      l.filter (fun e => decide (e.score = s))) ∧
    (rank l).Perm l := by
  unfold rank
  refine ⟨?_, ?_, List.mergeSort_perm l _⟩
  · have h := @List.sorted_mergeSort ScoredEntry
      (fun a b => decide (b.score ≤ a.score)) scoreLe_trans scoreLe_total l
    exact h.imp (fun hab => of_decide_eq_true hab)
  · intro s
    have hall : ∀ x ∈ l.filter (fun e => decide (e.score = s)), x.score = s := by
      intro x hx
      exact of_decide_eq_true (List.mem_filter.mp hx).2
    have hpair := pairwise_scoreLe_of_const s _ hall
    have hsub : List.Sublist (l.filter (fun e => decide (e.score = s)))
        (List.mergeSort l (fun a b => decide (b.score ≤ a.score))) :=
      List.sublist_mergeSort scoreLe_trans scoreLe_total hpair (List.filter_sublist l)
    have h2 : List.Sublist (l.filter (fun e => decide (e.score = s)))
        ((List.mergeSort l (fun a b => decide (b.score ≤ a.score))).filter
          (fun e => decide (e.score = s))) := by
      have h3 := hsub.filter (fun e => decide (e.score = s))
      simpa using h3
    have hlen : (l.filter (fun e => decide (e.score = s))).length =
        ((List.mergeSort l (fun a b => decide (b.score ≤ a.score))).filter
          (fun e => decide (e.score = s))).length :=
      (((List.mergeSort_perm l _).filter _).length_eq).symm
    exact (h2.eq_of_length hlen).symm

/-- C8 (confirmed): the action loop processes the array in order — the
actions after any prefix run on the prefix's resulting vault and their
lines are appended after the prefix's lines — so one action's failure
never prevents the following actions; concretely, a failing
`create_file` (path exists) contributes its error line with the
underlying store message and the next action still executes. -/
theorem execActions_order_isolated (v : Vault) (as1 as2 : List AgentAction) :
    execActions v (as1 ++ as2) =
      ((execActions (execActions v as1).1 as2).1,
        (execActions v as1).2 ++ (execActions (execActions v as1).1 as2).2) ∧
    execActions [("A", VEntry.file "x")]
        [⟨"create_file", "A", some "y"⟩, ⟨"create_folder", "B", none⟩] =
      ([("A", VEntry.file "x"), ("B", VEntry.folder)],
        "Error with action on A: File already exists: A\nCreated folder: B\n") :=
  ⟨execActions_append v as1 as2, by decide⟩

/-- C9 (confirmed): for equal-length vectors of non-zero norm the score is
symmetric, and the self-score is exactly 1 in the real-valued model
(within float tolerance in the source). -/
theorem cosineSimilarity_symm_self (a b : List ℚ) (_hlen : a.length = b.length)
    (ha : normSq a ≠ 0) (hb : normSq b ≠ 0) :
    cosineSimilarity a b = cosineSimilarity b a ∧
    cosineSimilarity a a = some 1 := by
  constructor
  · unfold cosineSimilarity
    rw [if_neg (by simp [ha, hb]), if_neg (by simp [ha, hb]), dot_comm,
      mul_comm (Real.sqrt (normSq a : ℚ)) (Real.sqrt (normSq b : ℚ))]
  · unfold cosineSimilarity
    rw [if_neg (by simp [ha])]
    have h0 : (0 : ℝ) ≤ ((normSq a : ℚ) : ℝ) := by
      exact_mod_cast normSq_nonneg a
    rw [dot_self, Real.mul_self_sqrt h0, div_self (by exact_mod_cast ha)]

/-- Witness for C9 at the concrete vectors `[1, 0]` and `[0, 1]`. -/
theorem cosineSimilarity_symm_self_witness :
    cosineSimilarity [1, 0] [0, 1] = cosineSimilarity [0, 1] [1, 0] ∧
    cosineSimilarity [1, 0] [1, 0] = some 1 :=
  cosineSimilarity_symm_self [1, 0] [0, 1] rfl
    (by norm_num [normSq]) (by norm_num [normSq])

/-- C10 (confirmed): an action whose type tag is none of the five known
ones changes nothing and contributes no summary line — splicing it into
any action list leaves the loop's result unchanged. -/
theorem execAction_unknown_type_skipped (v : Vault) (a : AgentAction)
    (as1 as2 : List AgentAction)
    (h1 : a.type ≠ "create_folder") (h2 : a.type ≠ "create_file")
    (h3 : a.type ≠ "delete_file") (h4 : a.type ≠ "delete_folder")
    (h5 : a.type ≠ "update_file") :
    execAction v a = (v, "") ∧
    execActions v (as1 ++ a :: as2) = execActions v (as1 ++ as2) := by
  have hx : ∀ w : Vault, execAction w a = (w, "") := by
    intro w
    unfold execAction
    rw [if_neg h1, if_neg h2, if_neg h3, if_neg h4, if_neg h5]
  have hstep : ∀ w : Vault, execActions w (a :: as2) = execActions w as2 := by
    intro w
    simp only [execActions, hx w, String.empty_append]
  refine ⟨hx v, ?_⟩
  rw [execActions_append v as1 (a :: as2), execActions_append v as1 as2,
    hstep (execActions v as1).1]

/-- Witness for C10 at the unknown tag `"rename_file"`. -/
theorem execAction_unknown_type_skipped_witness :
    execAction [] ⟨"rename_file", "X", none⟩ = ([], "") ∧
    execActions []
        ([⟨"create_folder", "B", none⟩] ++ ⟨"rename_file", "X", none⟩ :: []) =
      execActions [] ([⟨"create_folder", "B", none⟩] ++ []) :=
  execAction_unknown_type_skipped [] ⟨"rename_file", "X", none⟩
    [⟨"create_folder", "B", none⟩] [] (by decide) (by decide) (by decide)
    (by decide) (by decide)


/-- C2 (amended, corrected): the turn's parse-and-dispatch equals the
spec-side description `agentParseSpec` for every parse function, raw
response and vault — in particular the trimmed raw text is emitted only
when non-empty, the fallback otherwise. -/
theorem handleUserMessage_parse_dispatch
    (jp : String → Option (List AgentAction)) (raw : String) (v : Vault) :
    handleUserMessage jp (Except.ok raw) v = agentParseSpec jp raw v := by
  cases hS : jsIndexOf raw (Char.ofNat 91) with
  | none =>
    by_cases ht : jsTrim raw = "" <;>
      simp [handleUserMessage, agentParseSpec, hS, ht]
  | some s =>
    cases hE : jsLastIndexOf raw (Char.ofNat 93) with
    | none =>
      by_cases ht : jsTrim raw = "" <;>
        simp [handleUserMessage, agentParseSpec, hS, hE, ht]
    | some e =>
      by_cases hlt : s < e
      · cases hp : jp (jsSlice raw s (e + 1)) with
        | none =>
          by_cases ht : jsTrim raw = "" <;>
            simp [handleUserMessage, agentParseSpec, hS, hE, hlt, hp, ht]
        | some as =>
          cases as with
          | nil => simp [handleUserMessage, agentParseSpec, hS, hE, hlt, hp]
          | cons a rest =>
            simp [handleUserMessage, agentParseSpec, hS, hE, hlt, hp]
      · by_cases ht : jsTrim raw = "" <;>
          simp [handleUserMessage, agentParseSpec, hS, hE, hlt, ht]

/-- Counterexample to C2 as stated: a whitespace-only response has no
bracket pair, yet the emitted assistant message is the fallback, not the
(empty) trimmed raw text. -/
theorem handleUserMessage_whitespace_ne_trimmed :
    (handleUserMessage (fun _ => none) (Except.ok " ") []).2 ≠ jsTrim " " := by
  decide

/-- C3 (amended, corrected): a rebuild ignores the prior index entirely,
equals the per-document `keepEntry` filter-map (skip reserved-prefix
names, skip content under 50 characters, append exactly on a successful
embedding call returning a non-empty vector, continue past failures), and
on the concrete collection from the spec excludes exactly the two
reserved-name documents and the under-length one. -/
theorem indexAllNotes_rebuild_spec (embed : String → Option (List ℚ))
    (files : List TFileM) (old : List IndexEntry) :
    indexAllNotes embed files old = indexAllNotes embed files [] ∧
    indexAllNotes embed files old = files.filterMap (keepEntry embed) ∧
    indexAllNotes (fun _ => some [1])
        [⟨"Related Notes - X - 123.md", "Related Notes - X - 123.md", sample60⟩,
          ⟨"AI Answer - Y - 456.md", "AI Answer - Y - 456.md", sample60⟩,
          ⟨"Note.md", "Note.md", sample60⟩,
          ⟨"Short.md", "Short.md", "hi"⟩] [] =
      [⟨"Note.md", sample60, [1]⟩] :=
  ⟨rfl, indexAllNotes_eq_filterMap embed files old, by decide⟩

/-- Counterexample to C3 as stated: the embedding client can succeed with
an empty vector (the source only checks `Array.isArray`), and then the
rebuild appends no entry for a document that passed every skip rule. -/
theorem indexAllNotes_empty_embedding_skipped :
    getNoteEmbedding sample60 (some []) = some [] ∧
    indexAllNotes (fun t => getNoteEmbedding t (some []))
        [⟨"Note.md", "Note.md", sample60⟩] [] = [] :=
  ⟨by decide, by decide⟩

/-- C4 (amended, corrected): when the model's response parses to an empty
action array, the assistant message for the turn is
`"No valid actions or message returned."` (the string
`"No actions performed."` is reserved for a non-empty array whose actions
all contribute no line). -/
theorem handleUserMessage_empty_array_fallback
    (jp : String → Option (List AgentAction)) (raw : String) (v : Vault)
    (s e : Nat)
    (hS : jsIndexOf raw (Char.ofNat 91) = some s)
    (hE : jsLastIndexOf raw (Char.ofNat 93) = some e)
    (hlt : s < e)
    (hp : jp (jsSlice raw s (e + 1)) = some []) :
    handleUserMessage jp (Except.ok raw) v =
      (v, "No valid actions or message returned.") := by
  simp [handleUserMessage, hS, hE, hlt, hp]

/-- Witness for C4's amended theorem at the raw response `"[]"`. -/
theorem handleUserMessage_empty_array_fallback_witness :
    handleUserMessage (fun t => if t = "[]" then some [] else none)
        (Except.ok "[]") [] =
      ([], "No valid actions or message returned.") :=
  handleUserMessage_empty_array_fallback
    (fun t => if t = "[]" then some [] else none) "[]" [] 0 1
    (by decide) (by decide) (by decide) (by decide)

/-- Counterexample to C4 as stated: on the raw response `"[]"` the
emitted message is not `"No actions performed."`. -/
theorem handleUserMessage_empty_array_ne_no_actions :
    (handleUserMessage (fun t => if t = "[]" then some [] else none)
        (Except.ok "[]") []).2 ≠ "No actions performed." := by
  decide

/-- C5 (amended, corrected): the completion client fails only when the
response body is absent; when the transport delivers a body from which no
`response` fragment ever parses, it returns the empty string instead of
failing. -/
theorem getAICompletion_body_cases (jsonLine : String → Option (Option String))
    (chunks : List String)
    (h : ∀ c ∈ chunks, ∀ l ∈ splitLines c,
      jsonLine l = none ∨ jsonLine l = some none) :
    getAICompletion jsonLine none = Except.error "No response body from Ollama" ∧
    getAICompletion jsonLine (some chunks) = Except.ok "" := by
  refine ⟨rfl, ?_⟩
  unfold getAICompletion
  have inner : ∀ (lines : List String),
      (∀ l ∈ lines, jsonLine l = none ∨ jsonLine l = some none) →
      ∀ acc : String,
        lines.foldl
          (fun acc2 line =>
            if jsTrim line = "" then acc2
            else
              match jsonLine line with
              | none => acc2
              | some none => acc2
              | some (some r) => acc2 ++ r)
          acc = acc := by
    intro lines
    induction lines with
    | nil => intro _ acc; rfl
    | cons l rest ih =>
      intro hl acc
      simp only [List.foldl_cons]
      have step :
          (if jsTrim l = "" then acc
            else
              match jsonLine l with
              | none => acc
              | some none => acc
              | some (some r) => acc ++ r) = acc := by
        rcases hl l (List.mem_cons_self l rest) with h1 | h1 <;>
          by_cases ht : jsTrim l = "" <;> simp [ht, h1]
      rw [step]
      exact ih (fun x hx => hl x (List.mem_cons_of_mem l hx)) acc
  have outer : ∀ (cs : List String),
      (∀ c ∈ cs, ∀ l ∈ splitLines c, jsonLine l = none ∨ jsonLine l = some none) →
      ∀ acc : String,
        cs.foldl
          (fun acc chunk =>
            (splitLines chunk).foldl
              (fun acc2 line =>
                if jsTrim line = "" then acc2
                else
                  match jsonLine line with
                  | none => acc2
                  | some none => acc2
                  | some (some r) => acc2 ++ r)
              acc)
          acc = acc := by
    intro cs
    induction cs with
    | nil => intro _ acc; rfl
    | cons c rest ih =>
      intro hc acc
      simp only [List.foldl_cons]
      rw [inner (splitLines c) (hc c (List.mem_cons_self c rest)) acc]
      exact ih (fun x hx => hc x (List.mem_cons_of_mem c hx)) acc
  exact congrArg Except.ok (outer chunks h "")

/-- Witness for C5's amended theorem: lines that parse but carry no
`response` field leave the result empty. -/
theorem getAICompletion_body_cases_witness :
    getAICompletion (fun _ => some none) none =
      Except.error "No response body from Ollama" ∧
    getAICompletion (fun _ => some none) (some ["a\nb"]) = Except.ok "" :=
  getAICompletion_body_cases (fun _ => some none) ["a\nb"] (by decide)

/-- Counterexample to C5 as stated: a delivered body none of whose lines
parse as JSON makes the client return the empty string — an `ok` result,
not a failure. -/
theorem getAICompletion_junk_ok_empty :
    getAICompletion (fun _ => none) (some ["garbage"]) = Except.ok "" := by
  rfl
